import Mathlib

/-
  Verification of the ply2 codec's document validator and constructor
  (ply2/ply2.py: functions create and verify).

  The Python data is shallowly embedded: a Python dictionary is an
  association list of (key, value) pairs looked up by first match; a numpy
  ndarray is a record of its shape, dtype and (for object dtype) the flat
  list of its cells.  Python exceptions are the error side of Except.
  Nested arrays stored inside object cells are recorded by the only
  attributes verify reads of them: their dtype and shape (a numpy scalar,
  which also carries a dtype and an empty shape, is the rank-zero case).

  Python operations on values of the wrong kind follow the runtime:
  iterating the type field visits the entries of a list and the keys of a
  dictionary, visits the first-axis items of an ndarray, and raises
  TypeError on the non-iterable scalars (None, numbers, opaque objects);
  len and indexing of the comment field follow dictionaries, lists,
  strings and ndarrays and raise TypeError elsewhere.  A Python 2 boolean
  is an int everywhere a value's class is tested, so a boolean meta value
  is modelled by Value.int; inside an object cell however the scan
  compares the running base against the literal True, so the cell True is
  its own constructor.  Python equality between keys or members of
  different kinds (0 == 0.0, 0 == False) is abstracted to equality of the
  embedded constructors.
-/

namespace Ply2

/-- Numpy dtypes as classified by verify: signed integer, unsigned integer
and floating dtypes carry their itemsize in bytes; object is the cell
dtype; other stands for every remaining numpy dtype (bool, complex, ...). -/
inductive Dtype where
  | signedinteger (itemsize : Nat)
  | unsignedinteger (itemsize : Nat)
  | floating (itemsize : Nat)
  | object
  | other
deriving DecidableEq, Repr

/-- One cell of an object-dtype array: a Python string; an object
carrying a dtype and a shape, that is a nested ndarray or a numpy scalar
(verify reads only those two attributes of it); the Python None, which
the scan's base-is-None test treats as the undetermined sentinel; the
Python boolean True, which collides with the scan's string-mode
sentinel; or any other Python object, which has no dtype attribute. -/
inductive Cell where
  | str (s : String)
  | arr (dtype : Dtype) (shape : List Nat)
  | none
  | true
  | other
deriving DecidableEq, Repr

/-- A numpy ndarray as verify sees it: its shape, its dtype, and the flat
sequence of its cells (read only when the dtype is object). -/
structure NDArray where
  shape : List Nat
  dtype : Dtype
  cells : List Cell
deriving DecidableEq, Repr

/-- A Python value occurring in a ply2 document tree. -/
inductive Value where
  | str (s : String)
  | int (n : Int)
  | float
  | none
  | list (items : List Value)
  | dict (entries : List (Value × Value))
  | ndarray (arr : NDArray)
  | other

/-- A Python dictionary, as an association list looked up by first match. -/
abbrev Dict := List (Value × Value)

/-- The Python exceptions raised by verify. -/
inductive PyError where
  | keyError (msg : String)
  | valueError (msg : String)
  | typeError (msg : String)
  | runtimeError (msg : String)
  | attributeError (msg : String)
deriving DecidableEq, Repr

/-- The characters Python str.split and str.strip treat as whitespace. -/
def pySpace (c : Char) : Bool :=
  c == ' ' || c == '\t' || c == '\n' || c == '\r' || c == '\x0b' || c == '\x0c'

/-- Helper for pySplit: cur accumulates the current token reversed. -/
def pySplitAux : List Char → List Char → List (List Char)
  | [], [] => []
  | [], cur => [cur.reverse]
  | c :: rest, cur =>
    if pySpace c then
      match cur with
      | [] => pySplitAux rest []
      | _ => cur.reverse :: pySplitAux rest []
    else pySplitAux rest (c :: cur)

/-- Python str.split() with no argument: split on runs of whitespace,
discarding leading and trailing whitespace. -/
def pySplit (s : String) : List String :=
  (pySplitAux s.data []).map fun cs => String.mk cs

/-- Python str.strip(): remove leading and trailing whitespace. -/
def pyStrip (s : String) : String :=
  String.mk (((s.data.dropWhile fun c => pySpace c).reverse.dropWhile
      fun c => pySpace c).reverse)

/-- The test the source applies to every name and type token:
len(x.split()) != 1 or x.strip() != x. -/
def tokenBad (s : String) : Bool :=
  (pySplit s).length != 1 || pyStrip s != s

/-- Python d[key] for a string key: the first entry whose key is that
string (keys of other kinds never equal a string). -/
def lookupStr : Dict → String → Option Value
  | [], _ => Option.none
  | (k, v) :: rest, key =>
    match k with
    | Value.str s => if s == key then some v else lookupStr rest key
    | _ => lookupStr rest key

/-- Python d[i] for a natural-number key: the first entry whose key is
that integer. -/
def dictLookupInt : Dict → Nat → Option Value
  | [], _ => Option.none
  | (k, v) :: rest, i =>
    match k with
    | Value.int m => if m == Int.ofNat i then some v else dictLookupInt rest i
    | _ => dictLookupInt rest i

/-- The root keys a ply2 document may contain. -/
def rootNames : List String :=
  ["format", "type", "meta", "comment", "compress", "element"]

/-- Whether a root key is one of the allowed key strings. -/
def allowedRootKey : Value → Bool
  | Value.str s => rootNames.contains s
  | _ => false

/-- verify, root key check: set(data.keys()) <= set([...]). -/
def checkRootKeys (data : Dict) : Except PyError Unit :=
  if data.all fun kv => allowedRootKey kv.1 then Except.ok ()
  else Except.error (PyError.keyError "Root dictionary includes disallowed keys.")

/-- The legal values of the format field. -/
def formatNames : List String :=
  ["ascii", "binary_little_endian", "binary_big_endian"]

/-- verify, format check. -/
def checkFormat (data : Dict) : Except PyError Unit :=
  match lookupStr data "format" with
  | Option.none => Except.ok ()
  | some (Value.str s) =>
    if formatNames.contains s then Except.ok ()
    else Except.error (PyError.valueError "Unrecognised format.")
  | some _ => Except.error (PyError.valueError "Unrecognised format.")

/-- verify, loop body over the entries of the type list. -/
def checkTypeItems : List Value → Except PyError Unit
  | [] => Except.ok ()
  | item :: rest =>
    match item with
    | Value.str s =>
      if tokenBad s then
        Except.error (PyError.valueError "Type string contains whitespace.")
      else checkTypeItems rest
    | _ => Except.error (PyError.typeError "Type must be a string.")

/-- The Python object held by one object cell, as the type check sees it
(that check only asks whether the item is a string). -/
def cellItem : Cell → Value
  | Cell.str s => Value.str s
  | Cell.none => Value.none
  | _ => Value.other

/-- Iterating an ndarray at the type field: a rank-zero array refuses
iteration; an empty first axis yields no items; with several axes the
items are subarrays and with a numeric dtype they are numpy scalars,
neither a string, so the first item raises; a one-dimensional object
array yields its cells. -/
def checkTypeNdarray (a : NDArray) : Except PyError Unit :=
  match a.shape with
  | [] => Except.error (PyError.typeError "iteration over a 0-d array")
  | n :: restDims =>
    if n = 0 then Except.ok ()
    else
      match restDims with
      | _ :: _ => Except.error (PyError.typeError "Type must be a string.")
      | [] =>
        match a.dtype with
        | Dtype.object => checkTypeItems (a.cells.map cellItem)
        | _ => Except.error (PyError.typeError "Type must be a string.")

/-- verify, type check: a bare string is rejected, then each item the
value yields under iteration must be a whitespace-free string.  A list
yields its entries, a dictionary yields its keys, an ndarray its
first-axis items; None, numbers and opaque objects are not iterable. -/
def checkType (data : Dict) : Except PyError Unit :=
  match lookupStr data "type" with
  | Option.none => Except.ok ()
  | some (Value.str _) =>
    Except.error (PyError.typeError "Type must be a list of strings, not a single string.")
  | some (Value.list items) => checkTypeItems items
  | some (Value.dict entries) => checkTypeItems (entries.map Prod.fst)
  | some (Value.ndarray a) => checkTypeNdarray a
  | some _ => Except.error (PyError.typeError "Type value is not iterable.")

/-- Whether a meta value is a string, an int or a float. -/
def isMetaScalar : Value → Bool
  | Value.str _ => true
  | Value.int _ => true
  | Value.float => true
  | _ => false

/-- verify, loop body over meta key/value pairs. -/
def checkMetaItems : List (Value × Value) → Except PyError Unit
  | [] => Except.ok ()
  | (k, v) :: rest =>
    match k with
    | Value.str s =>
      if tokenBad s then
        Except.error (PyError.keyError "Name of meta variable contains white space.")
      else if isMetaScalar v then checkMetaItems rest
      else Except.error (PyError.typeError "Unsuported meta variable type.")
    | _ => Except.error (PyError.typeError "Meta name is not a string.")

/-- verify, meta check. -/
def checkMeta (data : Dict) : Except PyError Unit :=
  match lookupStr data "meta" with
  | Option.none => Except.ok ()
  | some (Value.dict entries) => checkMetaItems entries
  | some _ => Except.error (PyError.attributeError "Meta value is not a dictionary.")

/-- verify, one iteration of the comment loop: index i must be a key of
the comment dictionary, its value a string without a newline. -/
def checkCommentIdx (entries : Dict) (i : Nat) : Except PyError Unit :=
  match dictLookupInt entries i with
  | Option.none =>
    Except.error (PyError.keyError "Comments not indexed with contiguous natural numbers starting at zero")
  | some (Value.str s) =>
    if s.contains '\n' then
      Except.error (PyError.valueError "Comment line contains new line.")
    else Except.ok ()
  | some _ =>
    Except.error (PyError.valueError "Comment line not an instance of basestring.")

/-- verify, the comment loop over the given indices. -/
def checkCommentAll (entries : Dict) : List Nat → Except PyError Unit
  | [] => Except.ok ()
  | i :: rest =>
    Except.bind (checkCommentIdx entries i) fun _ => checkCommentAll entries rest

/-- Python i in xs for a list: whether some member equals the integer i. -/
def listContainsInt (xs : List Value) (i : Nat) : Bool :=
  xs.any fun v =>
    match v with
    | Value.int m => m == Int.ofNat i
    | _ => false

/-- One iteration of the comment loop over a list value: membership of
the index among the members, then list indexing. -/
def checkCommentListIdx (xs : List Value) (i : Nat) : Except PyError Unit :=
  if listContainsInt xs i then
    match xs.get? i with
    | some (Value.str s) =>
      if s.contains '\n' then
        Except.error (PyError.valueError "Comment line contains new line.")
      else Except.ok ()
    | _ => Except.error (PyError.valueError "Comment line not an instance of basestring.")
  else
    Except.error (PyError.keyError "Comments not indexed with contiguous natural numbers starting at zero")

/-- The comment loop over a list value. -/
def checkCommentList (xs : List Value) : List Nat → Except PyError Unit
  | [] => Except.ok ()
  | i :: rest =>
    Except.bind (checkCommentListIdx xs i) fun _ => checkCommentList xs rest

/-- verify, comment check: for i in xrange(len(data[comment])).  len and
the loop body follow the kind of the value: a dictionary is probed by
key, a list by membership and position.  A string of length n refuses
integer membership once n is positive, and over an ndarray with a
nonempty first axis the membership and string tests can never both
succeed (a cell equal to an integer is not a string), so for those two
kinds only the empty value completes the loop; rank-zero arrays and the
remaining kinds have no len. -/
def checkComment (data : Dict) : Except PyError Unit :=
  match lookupStr data "comment" with
  | Option.none => Except.ok ()
  | some (Value.dict entries) => checkCommentAll entries (List.range entries.length)
  | some (Value.list xs) => checkCommentList xs (List.range xs.length)
  | some (Value.str s) =>
    if s.length = 0 then Except.ok ()
    else Except.error (PyError.typeError "in <string> requires string as left operand")
  | some (Value.ndarray a) =>
    match a.shape with
    | [] => Except.error (PyError.typeError "len() of unsized object")
    | n :: _ =>
      if n = 0 then Except.ok ()
      else Except.error (PyError.keyError "Comments not indexed with contiguous natural numbers starting at zero")
  | some _ => Except.error (PyError.typeError "object has no len()")

/-- verify, compress check: the value must be one of None, the empty
string, gzip or bzip2. -/
def checkCompress (data : Dict) : Except PyError Unit :=
  match lookupStr data "compress" with
  | Option.none => Except.ok ()
  | some Value.none => Except.ok ()
  | some (Value.str s) =>
    if s == "" || s == "gzip" || s == "bzip2" then Except.ok ()
    else Except.error (PyError.valueError "Unrecognised format.")
  | some _ => Except.error (PyError.valueError "Unrecognised format.")

/-- The running base of the object-cell scan: None while the mode is
undetermined (also reached again after a skipped None cell), True once a
string or a True cell fixed string mode, or the first remaining item
itself (array mode, or any other non-string item). -/
inductive ScanBase where
  | undet
  | strMode
  | cellBase (c : Cell)

/-- verify, the scan over the flat cells of an object-dtype array.  In
the undetermined state the code runs base = True if the item is a string
else the item itself: a None item leaves base at None (the cell is
skipped), a True item sets the string-mode sentinel, any other item
becomes the base.  Later string-mode cells must be strings; in the
remaining case the code reads base.dtype and item.dtype, so a base or
item without a dtype attribute raises AttributeError. -/
def scanCells : List Cell → ScanBase → Except PyError Unit
  | [], _ => Except.ok ()
  | item :: rest, base =>
    match base with
    | ScanBase.undet =>
      scanCells rest
        (match item with
         | Cell.str _ => ScanBase.strMode
         | Cell.none => ScanBase.undet
         | Cell.true => ScanBase.strMode
         | _ => ScanBase.cellBase item)
    | ScanBase.strMode =>
      match item with
      | Cell.str _ => scanCells rest ScanBase.strMode
      | _ =>
        Except.error (PyError.typeError "All entrys in an element array of strings must be a string.")
    | ScanBase.cellBase b =>
      match b with
      | Cell.arr bd bs =>
        match item with
        | Cell.arr d s =>
          if bd != d || bs.length != s.length then
            Except.error (PyError.typeError "All entrys in an array of arrays must have the same type and same number of dimensions.")
          else scanCells rest (ScanBase.cellBase b)
        | _ => Except.error (PyError.attributeError "Object cell has no dtype attribute.")
      | _ => Except.error (PyError.attributeError "Object cell has no dtype attribute.")

/-- verify, dtype dispatch for one property array: width check for the
numeric dtypes, cell scan for the object dtype, rejection otherwise. -/
def checkDtype (arr : NDArray) : Except PyError Unit :=
  match arr.dtype with
  | Dtype.signedinteger w =>
    if ([1, 2, 4, 8, 16] : List Nat).contains w then Except.ok ()
    else Except.error (PyError.typeError "Element array has signed integer element with unsuported size.")
  | Dtype.unsignedinteger w =>
    if ([1, 2, 4, 8, 16] : List Nat).contains w then Except.ok ()
    else Except.error (PyError.typeError "Element array has unsigned integer element with unsuported size.")
  | Dtype.floating w =>
    if ([2, 4, 8, 16] : List Nat).contains w then Except.ok ()
    else Except.error (PyError.typeError "Element array has float element with unsuported size.")
  | Dtype.object => scanCells arr.cells ScanBase.undet
  | Dtype.other => Except.error (PyError.typeError "Element array has unsupported type.")

/-- verify, loop over the properties of one element, threading the shape
of the first property (Python: shape, starting as None). -/
def checkProps : List (Value × Value) → Option (List Nat) → Except PyError Unit
  | [], _ => Except.ok ()
  | (prop, av) :: rest, shape =>
    match prop with
    | Value.str s =>
      if tokenBad s then
        Except.error (PyError.keyError "Name of property contains white space.")
      else
        match av with
        | Value.ndarray arr =>
          match shape with
          | Option.none =>
            Except.bind (checkDtype arr) fun _ => checkProps rest (some arr.shape)
          | some sh =>
            if sh ≠ arr.shape then
              Except.error (PyError.runtimeError "Shapes of all properties in an element must match")
            else Except.bind (checkDtype arr) fun _ => checkProps rest (some sh)
        | _ => Except.error (PyError.typeError "Element data must be represented as a ndarray.")
    | _ => Except.error (PyError.typeError "Property name must be a string.")

/-- verify, loop over the elements. -/
def checkElements : List (Value × Value) → Except PyError Unit
  | [] => Except.ok ()
  | (k, v) :: rest =>
    match k with
    | Value.str s =>
      if tokenBad s then
        Except.error (PyError.keyError "Name of element contains white space.")
      else
        match v with
        | Value.dict props =>
          Except.bind (checkProps props Option.none) fun _ => checkElements rest
        | _ => Except.error (PyError.attributeError "Element value is not a dictionary.")
    | _ => Except.error (PyError.typeError "Element name must be a string.")

/-- verify, element check. -/
def checkElement (data : Dict) : Except PyError Unit :=
  match lookupStr data "element" with
  | Option.none => Except.ok ()
  | some (Value.dict els) => checkElements els
  | some _ => Except.error (PyError.attributeError "Element value is not a dictionary.")

/-- ply2.verify: the checks of the source in source order; the first
failing check raises, otherwise the function returns (a pure function of
the document, which it never modifies). -/
def verify (data : Dict) : Except PyError Unit :=
  Except.bind (checkRootKeys data) fun _ =>
  Except.bind (checkFormat data) fun _ =>
  Except.bind (checkType data) fun _ =>
  Except.bind (checkMeta data) fun _ =>
  Except.bind (checkComment data) fun _ =>
  Except.bind (checkCompress data) fun _ =>
  checkElement data

/-- ply2.create: the default document.  sys.byteorder is passed explicitly
as the byteorder argument; Python compares it with the string little. -/
def create (byteorder : String) (binary : Bool) (compress : Int) : Dict :=
  [ (Value.str "format",
     Value.str (if binary then
         (if byteorder == "little" then "binary_little_endian" else "binary_big_endian")
       else "ascii")),
    (Value.str "meta", Value.dict []),
    (Value.str "comment", Value.dict []),
    (Value.str "compress",
     if compress == 0 then Value.none
     else if compress == 1 then Value.str "gzip" else Value.str "bzip2"),
    (Value.str "element", Value.dict []) ]

/-- A canonical document holding one element with one property array,
used to state claims about a single property. -/
def mkPropDoc (a : NDArray) : Dict :=
  [(Value.str "element",
    Value.dict [(Value.str "elem",
      Value.dict [(Value.str "prop", Value.ndarray a)])])]

/-- A canonical document holding one object-dtype property with the given
declared shape and flat cells. -/
def mkObjDoc (shape : List Nat) (cells : List Cell) : Dict :=
  mkPropDoc ⟨shape, Dtype.object, cells⟩

/-- A canonical document holding only a comment dictionary. -/
def mkCommentDoc (entries : Dict) : Dict :=
  [(Value.str "comment", Value.dict entries)]

/-- A canonical document holding only a compress field. -/
def mkCompressDoc (v : Value) : Dict :=
  [(Value.str "compress", v)]

namespace Spec

/-
  The invariants of the data model, written from the words of the
  specification (section 3) rather than from the source, for comparison
  with verify.  Spec.valid is the conjunction of the invariants as the
  specification states them.  Spec.objectModeOKCode states, next to the
  specification's object-mode clause, the weaker clause the code's scan
  actually enforces; it is used to characterize the element check.
-/

/-- Invariant 3, one name or type token: a single whitespace-free token
equal to its own trimmed form. -/
def tokenOK (s : String) : Bool :=
  (pySplit s).length == 1 && pyStrip s == s

/-- Invariant 1: root keys are a subset of the six allowed key strings. -/
def rootKeysOK (data : Dict) : Bool :=
  data.all fun kv => allowedRootKey kv.1

/-- Invariant 2 for format: the format field, when present, takes one of
its enumerated values. -/
def formatOK (data : Dict) : Bool :=
  match lookupStr data "format" with
  | Option.none => true
  | some (Value.str s) => formatNames.contains s
  | some _ => false

/-- Invariant 3 for type: an optional sequence of single-token strings. -/
def typeOK (data : Dict) : Bool :=
  match lookupStr data "type" with
  | Option.none => true
  | some (Value.list items) =>
    items.all fun it =>
      match it with
      | Value.str s => tokenOK s
      | _ => false
  | some _ => false

/-- Invariants 3 and 4 for meta: a mapping from single-token names to
scalar (string, integer or float) values. -/
def metaOK (data : Dict) : Bool :=
  match lookupStr data "meta" with
  | Option.none => true
  | some (Value.dict entries) =>
    entries.all fun kv =>
      (match kv.1 with
       | Value.str s => tokenOK s
       | _ => false) && isMetaScalar kv.2
  | some _ => false

/-- Invariant 5, one comment index: index i is present and holds a
single-line string. -/
def commentEntryOK (entries : Dict) (i : Nat) : Bool :=
  match dictLookupInt entries i with
  | some (Value.str s) => !(s.contains '\n')
  | _ => false

/-- Invariant 5: the comment indices are exactly 0 .. n-1 for the size n
of the mapping, each holding a single-line string. -/
def commentOK (data : Dict) : Bool :=
  match lookupStr data "comment" with
  | Option.none => true
  | some (Value.dict entries) =>
    ((List.range entries.length).all fun i => commentEntryOK entries i)
      && entries.all fun kv =>
        match kv.1 with
        | Value.int m => decide (0 ≤ m ∧ m < Int.ofNat entries.length)
        | _ => false
  | some _ => false

/-- Whether a compress value denotes no compression (the module header
lists both None and the empty string as meaning no compression). -/
def denotesNone : Value → Bool
  | Value.none => true
  | Value.str s => s == ""
  | _ => false

/-- Whether a compress value denotes gzip compression. -/
def denotesGzip : Value → Bool
  | Value.str s => s == "gzip"
  | _ => false

/-- Whether a compress value denotes bzip2 compression. -/
def denotesBzip2 : Value → Bool
  | Value.str s => s == "bzip2"
  | _ => false

/-- Invariant 2 for compress: the compress field, when present, denotes
one of the enumerated modes none, gzip, bzip2. -/
def compressOK (data : Dict) : Bool :=
  match lookupStr data "compress" with
  | Option.none => true
  | some v => denotesNone v || denotesGzip v || denotesBzip2 v

/-- Whether an object cell is a string. -/
def isStrCell : Cell → Bool
  | Cell.str _ => true
  | _ => false

/-- Array mode of invariant 8: every cell is a nested array whose dtype
and rank match every other cell's. -/
def arrModeOK : List Cell → Bool
  | [] => true
  | c :: rest =>
    match c with
    | Cell.arr d s =>
      rest.all fun c2 =>
        match c2 with
        | Cell.arr d2 s2 => d == d2 && s.length == s2.length
        | _ => false
    | _ => false

/-- Invariant 8 as the specification states it: the property is in string
mode (every cell a string) or in array mode (every cell a nested array of
one shared dtype and rank). -/
def objectModeOK (cells : List Cell) : Bool :=
  cells.all isStrCell || arrModeOK cells

/-- Whether an object cell is the Python None. -/
def isNoneCell : Cell → Bool
  | Cell.none => true
  | _ => false

/-- Invariant 8 as the code enforces it: leading None cells are skipped
while the mode is undetermined; the first remaining cell fixes the mode,
a string or a True cell fixing string mode over the later cells, an
array fixing its dtype and rank over the later cells, and any other
first cell being accepted when it is the last.  A property with no cell
past its leading None cells is accepted whatever they were. -/
def objectModeOKCode (cells : List Cell) : Bool :=
  match cells.dropWhile isNoneCell with
  | [] => true
  | c :: tail =>
    match c with
    | Cell.str _ => tail.all isStrCell
    | Cell.true => tail.all isStrCell
    | Cell.arr d s =>
      tail.all fun c2 =>
        match c2 with
        | Cell.arr d2 s2 => d == d2 && s.length == s2.length
        | _ => false
    | _ => tail.isEmpty

/-- Invariant 7, and invariant 8 through the given object-mode clause:
the dtype of one property array is legal. -/
def dtypeOKWith (objOK : List Cell → Bool) (arr : NDArray) : Bool :=
  match arr.dtype with
  | Dtype.signedinteger w => ([1, 2, 4, 8, 16] : List Nat).contains w
  | Dtype.unsignedinteger w => ([1, 2, 4, 8, 16] : List Nat).contains w
  | Dtype.floating w => ([2, 4, 8, 16] : List Nat).contains w
  | Dtype.object => objOK arr.cells
  | Dtype.other => false

/-- Invariants 3 and 7/8 over the properties of one element: each entry
is a single-token name mapped to an ndarray of legal dtype. -/
def propsEntriesOK (objOK : List Cell → Bool) (props : Dict) : Bool :=
  props.all fun kv =>
    match kv.1, kv.2 with
    | Value.str s, Value.ndarray arr => tokenOK s && dtypeOKWith objOK arr
    | _, _ => false

/-- The shape of a property entry, when its value is an ndarray. -/
def propShape : Value × Value → Option (List Nat)
  | (_, Value.ndarray arr) => some arr.shape
  | _ => Option.none

/-- Invariant 6: within one element every property array has the same
full shape. -/
def shapesOK (props : Dict) : Bool :=
  match props.filterMap propShape with
  | [] => true
  | s :: rest => rest.all fun s2 => s2 == s

/-- Invariants 3, 6, 7 and 8 for the element mapping. -/
def elementOKWith (objOK : List Cell → Bool) (data : Dict) : Bool :=
  match lookupStr data "element" with
  | Option.none => true
  | some (Value.dict els) =>
    els.all fun kv =>
      match kv.1, kv.2 with
      | Value.str s, Value.dict props =>
        tokenOK s && propsEntriesOK objOK props && shapesOK props
      | _, _ => false
  | some _ => false

/-- All invariants of section 3 of the specification, with the
object-mode clause passed in. -/
def validWith (objOK : List Cell → Bool) (data : Dict) : Bool :=
  rootKeysOK data && formatOK data && typeOK data && metaOK data
    && commentOK data && compressOK data && elementOKWith objOK data

/-- The invariants exactly as the specification states them. -/
def valid (data : Dict) : Bool :=
  validWith objectModeOK data

end Spec

/-! ### Decomposition of the check pipeline -/

/-- A bound unit-valued check succeeds exactly when both stages do. -/
theorem except_bind_ok_iff (x : Except PyError Unit) (f : Unit → Except PyError Unit) :
    Except.bind x f = Except.ok () ↔ (x = Except.ok () ∧ f () = Except.ok ()) := by
  cases x with
  | error e => simp [Except.bind]
  | ok u => cases u; simp [Except.bind]

/-- verify succeeds exactly when each of its seven checks succeeds. -/
theorem verify_ok_iff (data : Dict) :
    verify data = Except.ok () ↔
      (checkRootKeys data = Except.ok () ∧ checkFormat data = Except.ok ()
        ∧ checkType data = Except.ok () ∧ checkMeta data = Except.ok ()
        ∧ checkComment data = Except.ok () ∧ checkCompress data = Except.ok ()
        ∧ checkElement data = Except.ok ()) := by
  simp only [verify, except_bind_ok_iff]

/-- The two token conditions are complementary. -/
theorem tokenBad_eq_not_tokenOK (s : String) : tokenBad s = !(Spec.tokenOK s) := by
  unfold tokenBad Spec.tokenOK
  cases h1 : (pySplit s).length == 1 <;> cases h2 : pyStrip s == s <;>
    simp [bne, h1, h2]

/-! ### Characterizing each check by its invariant -/

/-- The root key check succeeds exactly on invariant 1. -/
theorem checkRootKeys_ok_iff (data : Dict) :
    checkRootKeys data = Except.ok () ↔ Spec.rootKeysOK data = true := by
  cases h : data.all fun kv => allowedRootKey kv.1 <;>
    simp [checkRootKeys, Spec.rootKeysOK, h]

/-- The format check succeeds exactly on the format part of invariant 2. -/
theorem checkFormat_ok_iff (data : Dict) :
    checkFormat data = Except.ok () ↔ Spec.formatOK data = true := by
  unfold checkFormat Spec.formatOK
  cases h : lookupStr data "format" with
  | none => simp
  | some v =>
    cases v
    case str s =>
      cases hc : formatNames.contains s <;> simp [hc]
    all_goals simp

/-- The type item loop succeeds exactly when every entry is a token string. -/
theorem checkTypeItems_ok_iff (items : List Value) :
    checkTypeItems items = Except.ok () ↔
      (items.all fun it =>
        match it with
        | Value.str s => Spec.tokenOK s
        | _ => false) = true := by
  induction items with
  | nil => simp [checkTypeItems]
  | cons item rest ih =>
    cases item
    case str s =>
      cases ht : Spec.tokenOK s with
      | false =>
        have htb : tokenBad s = true := by
          rw [tokenBad_eq_not_tokenOK, ht]
          rfl
        simp [checkTypeItems, htb, ht]
      | true =>
        have htb : tokenBad s = false := by
          rw [tokenBad_eq_not_tokenOK, ht]
          rfl
        simp [checkTypeItems, htb, ht, ih]
    all_goals simp [checkTypeItems]

/-- A type field satisfying the specification's type invariant passes
the type check.  Only this direction holds: the code also accepts other
iterable values whose items are all token strings, a mapping with token
keys for instance. -/
theorem checkType_ok_of_typeOK (data : Dict) (h : Spec.typeOK data = true) :
    checkType data = Except.ok () := by
  unfold checkType
  unfold Spec.typeOK at h
  cases hl : lookupStr data "type" with
  | none => rfl
  | some v =>
    rw [hl] at h
    cases v
    case list items =>
      exact (checkTypeItems_ok_iff items).mpr h
    all_goals simp at h

/-- The meta item loop succeeds exactly when every entry is a token name
with a scalar value. -/
theorem checkMetaItems_ok_iff (entries : List (Value × Value)) :
    checkMetaItems entries = Except.ok () ↔
      (entries.all fun kv =>
        (match kv.1 with
         | Value.str s => Spec.tokenOK s
         | _ => false) && isMetaScalar kv.2) = true := by
  induction entries with
  | nil => simp [checkMetaItems]
  | cons kv rest ih =>
    obtain ⟨k, v⟩ := kv
    cases k <;> simp [checkMetaItems, List.all_cons, ih]
    case str s =>
      rw [tokenBad_eq_not_tokenOK]
      cases h1 : Spec.tokenOK s <;> cases h2 : isMetaScalar v <;> simp_all

/-- The meta check succeeds exactly on invariants 3 and 4 for meta. -/
theorem checkMeta_ok_iff (data : Dict) :
    checkMeta data = Except.ok () ↔ Spec.metaOK data = true := by
  unfold checkMeta Spec.metaOK
  cases h : lookupStr data "meta" with
  | none => simp
  | some v => cases v <;> simp [checkMetaItems_ok_iff]

/-- The compress check succeeds exactly when the value denotes one of the
three compression modes. -/
theorem checkCompress_ok_iff (data : Dict) :
    checkCompress data = Except.ok () ↔ Spec.compressOK data = true := by
  unfold checkCompress Spec.compressOK
  cases h : lookupStr data "compress" with
  | none => simp
  | some v =>
    cases v <;> simp [Spec.denotesNone, Spec.denotesGzip, Spec.denotesBzip2]
    case str s =>
      cases h1 : s == "" <;> cases h2 : s == "gzip" <;> cases h3 : s == "bzip2" <;>
        simp_all

/-! ### The comment check -/

/-- One comment iteration succeeds exactly on the per-index invariant. -/
theorem checkCommentIdx_ok_iff (entries : Dict) (i : Nat) :
    checkCommentIdx entries i = Except.ok () ↔ Spec.commentEntryOK entries i = true := by
  unfold checkCommentIdx Spec.commentEntryOK
  cases h : dictLookupInt entries i with
  | none => simp
  | some v => cases v <;> simp

/-- The comment loop succeeds exactly when every visited index passes. -/
theorem checkCommentAll_ok_iff (entries : Dict) (idxs : List Nat) :
    checkCommentAll entries idxs = Except.ok () ↔
      ∀ i ∈ idxs, Spec.commentEntryOK entries i = true := by
  induction idxs with
  | nil => simp [checkCommentAll]
  | cons i rest ih =>
    simp [checkCommentAll, except_bind_ok_iff, checkCommentIdx_ok_iff, ih]

/-- A successful integer lookup exhibits a matching entry. -/
theorem dictLookupInt_mem {entries : Dict} {i : Nat} {v : Value}
    (h : dictLookupInt entries i = some v) :
    (Value.int (Int.ofNat i), v) ∈ entries := by
  induction entries with
  | nil => simp [dictLookupInt] at h
  | cons kv rest ih =>
    obtain ⟨k, w⟩ := kv
    cases k <;> simp only [dictLookupInt] at h <;>
      try exact List.mem_cons_of_mem _ (ih h)
    case int m =>
      by_cases hm : m == Int.ofNat i
      · rw [if_pos hm] at h
        cases h
        have : m = Int.ofNat i := by simpa using hm
        subst this
        exact List.mem_cons_self _ _
      · rw [if_neg hm] at h
        exact List.mem_cons_of_mem _ (ih h)

/-- An entry keyed by integer i makes the lookup of i succeed. -/
theorem dictLookupInt_isSome_of_mem {entries : Dict} {i : Nat} {v : Value}
    (h : (Value.int (Int.ofNat i), v) ∈ entries) :
    (dictLookupInt entries i).isSome = true := by
  induction entries with
  | nil => simp at h
  | cons kv rest ih =>
    obtain ⟨k, w⟩ := kv
    rcases List.mem_cons.mp h with heq | hmem
    · cases heq
      simp [dictLookupInt]
    · cases k <;> simp only [dictLookupInt] <;> try exact ih hmem
      case int m =>
        by_cases hm : m == Int.ofNat i
        · rw [if_pos hm]; rfl
        · rw [if_neg hm]; exact ih hmem

/-- With pairwise distinct keys, lookup of integer i returns the value of
the unique entry keyed by i. -/
theorem dictLookupInt_eq_of_nodup {entries : Dict} {i : Nat} {v : Value}
    (hnd : (entries.map Prod.fst).Nodup)
    (h : (Value.int (Int.ofNat i), v) ∈ entries) :
    dictLookupInt entries i = some v := by
  induction entries with
  | nil => simp at h
  | cons kv rest ih =>
    obtain ⟨k, w⟩ := kv
    have hnd' : (rest.map Prod.fst).Nodup := (List.nodup_cons.mp hnd).2
    have hknotin : k ∉ rest.map Prod.fst := (List.nodup_cons.mp hnd).1
    rcases List.mem_cons.mp h with heq | hmem
    · cases heq
      simp [dictLookupInt]
    · have hkey : Value.int (Int.ofNat i) ∈ rest.map Prod.fst :=
        List.mem_map_of_mem Prod.fst hmem
      cases k <;> simp only [dictLookupInt] <;> try exact ih hnd' hmem
      case int m =>
        by_cases hm : m == Int.ofNat i
        · exfalso
          have : m = Int.ofNat i := by simpa using hm
          subst this
          exact hknotin hkey
        · rw [if_neg hm]
          exact ih hnd' hmem

/-- The list of the integer keys 0 .. n-1 has no duplicates. -/
theorem rangeKeys_nodup (n : Nat) :
    ((List.range n).map fun i => Value.int (Int.ofNat i)).Nodup := by
  refine List.Nodup.map ?_ (List.nodup_range _)
  intro a b hab
  simpa using hab

/-- Pigeonhole: when every index below the size of the dictionary is a
key, the keys are a permutation of those indices. -/
theorem comment_keys_perm (entries : Dict)
    (h : ∀ i < entries.length, (dictLookupInt entries i).isSome = true) :
    (entries.map Prod.fst).Perm
      ((List.range entries.length).map fun i => Value.int (Int.ofNat i)) := by
  have hndR := rangeKeys_nodup entries.length
  have hsub : ((List.range entries.length).map fun i => Value.int (Int.ofNat i))
      ⊆ entries.map Prod.fst := by
    intro x hx
    obtain ⟨i, hi, rfl⟩ := List.mem_map.mp hx
    obtain ⟨v, hv⟩ := Option.isSome_iff_exists.mp (h i (List.mem_range.mp hi))
    exact List.mem_map_of_mem Prod.fst (dictLookupInt_mem hv)
  have hlen : (entries.map Prod.fst).length ≤
      ((List.range entries.length).map fun i => Value.int (Int.ofNat i)).length := by
    simp
  exact ((List.subperm_of_subset hndR hsub).perm_of_length_le hlen).symm

/-- Every key of a comment dictionary accepted by the loop is an integer
below the size of the dictionary. -/
theorem comment_keys_int (entries : Dict)
    (h : ∀ i < entries.length, (dictLookupInt entries i).isSome = true)
    {kv : Value × Value} (hkv : kv ∈ entries) :
    ∃ i : Nat, i < entries.length ∧ kv.1 = Value.int (Int.ofNat i) := by
  have hp := comment_keys_perm entries h
  have hx : kv.1 ∈ (List.range entries.length).map fun i => Value.int (Int.ofNat i) :=
    hp.subset (List.mem_map_of_mem Prod.fst hkv)
  obtain ⟨i, hi, he⟩ := List.mem_map.mp hx
  exact ⟨i, List.mem_range.mp hi, he.symm⟩

/-- A comment field satisfying the specification's comment invariant
passes the comment check.  Only this direction holds: the code also
accepts empty values of other kinds, an empty list or empty string for
instance, whose zero length makes the index loop body never run. -/
theorem checkComment_ok_of_commentOK (data : Dict)
    (h : Spec.commentOK data = true) :
    checkComment data = Except.ok () := by
  unfold checkComment
  unfold Spec.commentOK at h
  cases hl : lookupStr data "comment" with
  | none => rfl
  | some v =>
    rw [hl] at h
    cases v
    case dict entries =>
      simp only [Bool.and_eq_true, List.all_eq_true] at h
      rw [checkCommentAll_ok_iff]
      intro i hi
      exact h.1 i hi
    all_goals simp at h

/-! ### The element check -/

/-- In string mode the scan succeeds exactly when every remaining cell is
a string. -/
theorem scanCells_strMode_ok_iff (cells : List Cell) :
    scanCells cells ScanBase.strMode = Except.ok () ↔
      cells.all Spec.isStrCell = true := by
  induction cells with
  | nil => simp [scanCells]
  | cons c rest ih => cases c <;> simp [scanCells, Spec.isStrCell, ih]

/-- With an array base the scan succeeds exactly when every remaining
cell is an array of the base's dtype and rank. -/
theorem scanCells_arrBase_ok_iff (cells : List Cell) (d : Dtype) (s : List Nat) :
    scanCells cells (ScanBase.cellBase (Cell.arr d s)) = Except.ok () ↔
      (cells.all fun c2 =>
        match c2 with
        | Cell.arr d2 s2 => d == d2 && s.length == s2.length
        | _ => false) = true := by
  induction cells with
  | nil => simp [scanCells]
  | cons c rest ih =>
    cases c <;> simp [scanCells, ih]
    case arr d2 s2 =>
      cases h1 : d == d2 <;> cases h2 : s.length == s2.length <;>
        simp_all [bne]

/-- With a base that is neither a string nor an array, the scan errors on
any further cell. -/
theorem scanCells_otherBase_ok_iff (cells : List Cell) :
    scanCells cells (ScanBase.cellBase Cell.other) = Except.ok () ↔ cells = [] := by
  cases cells <;> simp [scanCells]

/-- The full scan succeeds exactly on the object-mode clause the code
enforces: leading None cells skipped, then string mode after a string or
True cell, matching array mode after an array cell, or a lone cell of
any other kind. -/
theorem scanCells_undet_ok_iff (cells : List Cell) :
    scanCells cells ScanBase.undet = Except.ok () ↔
      Spec.objectModeOKCode cells = true := by
  induction cells with
  | nil => simp [scanCells, Spec.objectModeOKCode]
  | cons c rest ih =>
    cases c with
    | str s =>
      rw [show scanCells (Cell.str s :: rest) ScanBase.undet
            = scanCells rest ScanBase.strMode from rfl,
        scanCells_strMode_ok_iff]
      simp [Spec.objectModeOKCode, List.dropWhile_cons, Spec.isNoneCell]
    | true =>
      rw [show scanCells (Cell.true :: rest) ScanBase.undet
            = scanCells rest ScanBase.strMode from rfl,
        scanCells_strMode_ok_iff]
      simp [Spec.objectModeOKCode, List.dropWhile_cons, Spec.isNoneCell]
    | none =>
      rw [show scanCells (Cell.none :: rest) ScanBase.undet
            = scanCells rest ScanBase.undet from rfl, ih]
      simp [Spec.objectModeOKCode, List.dropWhile_cons, Spec.isNoneCell]
    | arr d s =>
      rw [show scanCells (Cell.arr d s :: rest) ScanBase.undet
            = scanCells rest (ScanBase.cellBase (Cell.arr d s)) from rfl,
        scanCells_arrBase_ok_iff]
      simp [Spec.objectModeOKCode, List.dropWhile_cons, Spec.isNoneCell]
    | other =>
      rw [show scanCells (Cell.other :: rest) ScanBase.undet
            = scanCells rest (ScanBase.cellBase Cell.other) from rfl,
        scanCells_otherBase_ok_iff]
      simp [Spec.objectModeOKCode, List.dropWhile_cons, Spec.isNoneCell,
        List.isEmpty_iff]

/-- The dtype dispatch succeeds exactly on the legality clause the code
enforces. -/
theorem checkDtype_ok_iff (arr : NDArray) :
    checkDtype arr = Except.ok () ↔
      Spec.dtypeOKWith Spec.objectModeOKCode arr = true := by
  obtain ⟨shape, dtype, cells⟩ := arr
  cases dtype <;>
    simp only [checkDtype, Spec.dtypeOKWith, scanCells_undet_ok_iff]
  case signedinteger w => split <;> simp_all
  case unsignedinteger w => split <;> simp_all
  case floating w => split <;> simp_all
  case other => simp

/-- Whether every ndarray value among the properties has the given shape
(non-ndarray values are constrained elsewhere). -/
def shapesAllEq (props : Dict) (sh : List Nat) : Bool :=
  props.all fun kv =>
    match kv.2 with
    | Value.ndarray arr => arr.shape == sh
    | _ => true

/-- shapesAllEq restated over the list of property shapes. -/
theorem shapesAllEq_eq_filterMap (props : Dict) (sh : List Nat) :
    shapesAllEq props sh
      = (props.filterMap Spec.propShape).all fun s2 => s2 == sh := by
  induction props with
  | nil => rfl
  | cons kv rest ih =>
    obtain ⟨k, v⟩ := kv
    simp only [shapesAllEq] at ih
    cases v <;>
      simp only [shapesAllEq, List.all_cons, List.filterMap_cons, Spec.propShape,
        Bool.true_and] <;>
      rw [← ih]

/-- The property loop with a fixed running shape succeeds exactly when
every entry is well-formed and every array has that shape. -/
theorem checkProps_some_ok_iff (props : Dict) (sh : List Nat) :
    checkProps props (some sh) = Except.ok () ↔
      (Spec.propsEntriesOK Spec.objectModeOKCode props = true
        ∧ shapesAllEq props sh = true) := by
  induction props with
  | nil => simp [checkProps, Spec.propsEntriesOK, shapesAllEq]
  | cons kv rest ih =>
    obtain ⟨k, v⟩ := kv
    simp only [Spec.propsEntriesOK, shapesAllEq, List.all_cons] at ih ⊢
    cases k
    case str s =>
      cases ht : Spec.tokenOK s with
      | false =>
        have htb : tokenBad s = true := by
          rw [tokenBad_eq_not_tokenOK, ht]
          rfl
        cases v <;> simp [checkProps, htb, ht]
      | true =>
        have htb : tokenBad s = false := by
          rw [tokenBad_eq_not_tokenOK, ht]
          rfl
        cases v
        case ndarray arr =>
          simp only [checkProps]
          rw [if_neg (by simp [htb])]
          by_cases hsh : sh = arr.shape
          · rw [if_neg (not_not_intro hsh), except_bind_ok_iff,
              checkDtype_ok_iff, ih]
            have hbeq : (arr.shape == sh) = true := by simp [hsh]
            simp only [ht, hbeq, Bool.true_and, Bool.and_eq_true]
            tauto
          · rw [if_pos hsh]
            have hbeq : (arr.shape == sh) = false := by
              rw [beq_eq_false_iff_ne]
              exact fun h => hsh h.symm
            simp [hbeq, ht]
        all_goals simp [checkProps, htb, ht]
    all_goals simp [checkProps]

/-- The property loop from an undetermined shape succeeds exactly when
every entry is well-formed and all shapes agree. -/
theorem checkProps_none_ok_iff (props : Dict) :
    checkProps props Option.none = Except.ok () ↔
      (Spec.propsEntriesOK Spec.objectModeOKCode props = true
        ∧ Spec.shapesOK props = true) := by
  cases props with
  | nil => simp [checkProps, Spec.propsEntriesOK, Spec.shapesOK]
  | cons kv rest =>
    obtain ⟨k, v⟩ := kv
    simp only [Spec.propsEntriesOK, Spec.shapesOK, List.all_cons,
      List.filterMap_cons]
    cases k
    case str s =>
      cases ht : Spec.tokenOK s with
      | false =>
        have htb : tokenBad s = true := by
          rw [tokenBad_eq_not_tokenOK, ht]
          rfl
        cases v <;> simp [checkProps, htb, ht, Spec.propShape]
      | true =>
        have htb : tokenBad s = false := by
          rw [tokenBad_eq_not_tokenOK, ht]
          rfl
        cases v
        case ndarray arr =>
          simp only [checkProps]
          rw [if_neg (by simp [htb])]
          rw [except_bind_ok_iff, checkDtype_ok_iff, checkProps_some_ok_iff,
            shapesAllEq_eq_filterMap]
          simp only [ht, Spec.propShape, Spec.propsEntriesOK, Bool.true_and,
            Bool.and_eq_true]
          tauto
        all_goals simp [checkProps, htb, ht, Spec.propShape]
    all_goals simp [checkProps, Spec.propShape]

/-- The element loop succeeds exactly when every element entry is
well-formed. -/
theorem checkElements_ok_iff (els : List (Value × Value)) :
    checkElements els = Except.ok () ↔
      (els.all fun kv =>
        match kv.1, kv.2 with
        | Value.str s, Value.dict props =>
          Spec.tokenOK s && Spec.propsEntriesOK Spec.objectModeOKCode props
            && Spec.shapesOK props
        | _, _ => false) = true := by
  induction els with
  | nil => simp [checkElements]
  | cons kv rest ih =>
    obtain ⟨k, v⟩ := kv
    simp only [List.all_cons]
    cases k
    case str s =>
      cases ht : Spec.tokenOK s with
      | false =>
        have htb : tokenBad s = true := by
          rw [tokenBad_eq_not_tokenOK, ht]
          rfl
        cases v <;> simp [checkElements, htb, ht]
      | true =>
        have htb : tokenBad s = false := by
          rw [tokenBad_eq_not_tokenOK, ht]
          rfl
        cases v
        case dict props =>
          simp only [checkElements]
          rw [if_neg (by simp [htb])]
          rw [except_bind_ok_iff, checkProps_none_ok_iff, ih]
          simp only [ht, Bool.true_and, Bool.and_eq_true]
        all_goals simp [checkElements, htb, ht]
    all_goals simp [checkElements]

/-- The element check succeeds exactly on invariants 3 and 6 to 8, with
the object-mode clause the code enforces. -/
theorem checkElement_ok_iff (data : Dict) :
    checkElement data = Except.ok () ↔
      Spec.elementOKWith Spec.objectModeOKCode data = true := by
  unfold checkElement Spec.elementOKWith
  cases h : lookupStr data "element" with
  | none => simp
  | some v => cases v <;> simp [checkElements_ok_iff]

/-! ### Canonical-document bridges -/

/-- verify on a one-property document reduces to the dtype dispatch. -/
theorem verify_mkPropDoc_ok_iff (a : NDArray) :
    verify (mkPropDoc a) = Except.ok () ↔ checkDtype a = Except.ok () := by
  have hexp : verify (mkPropDoc a) =
      Except.bind
        (Except.bind (checkDtype a) fun _ => checkProps ([] : Dict) (some a.shape))
        (fun _ => Except.ok ()) := rfl
  rw [hexp, except_bind_ok_iff, except_bind_ok_iff]
  simp [checkProps]

/-- verify on a one-object-property document reduces to the cell scan. -/
theorem verify_mkObjDoc_ok_iff (shape : List Nat) (cells : List Cell) :
    verify (mkObjDoc shape cells) = Except.ok () ↔
      scanCells cells ScanBase.undet = Except.ok () := by
  rw [show mkObjDoc shape cells = mkPropDoc ⟨shape, Dtype.object, cells⟩ from rfl,
    verify_mkPropDoc_ok_iff]
  exact Iff.rfl

/-- verify on a comment-only document reduces to the comment loop. -/
theorem verify_mkCommentDoc_ok_iff (entries : Dict) :
    verify (mkCommentDoc entries) = Except.ok () ↔
      checkCommentAll entries (List.range entries.length) = Except.ok () := by
  have hexp : verify (mkCommentDoc entries) =
      Except.bind (checkCommentAll entries (List.range entries.length))
        (fun _ => Except.ok ()) := rfl
  rw [hexp, except_bind_ok_iff]
  simp

/-- verify on a compress-only document reduces to the compress check. -/
theorem verify_mkCompressDoc_ok_iff (v : Value) :
    verify (mkCompressDoc v) = Except.ok () ↔
      checkCompress (mkCompressDoc v) = Except.ok () := by
  have hexp : verify (mkCompressDoc v) =
      Except.bind (checkCompress (mkCompressDoc v)) (fun _ => Except.ok ()) := rfl
  rw [hexp, except_bind_ok_iff]
  simp

/-! ### The specification's invariants imply acceptance -/

/-- The specification's object-mode clause implies the clause the code
enforces. -/
theorem objectModeOK_le_code (cells : List Cell)
    (h : Spec.objectModeOK cells = true) :
    Spec.objectModeOKCode cells = true := by
  unfold Spec.objectModeOK at h
  rw [Bool.or_eq_true] at h
  rcases h with hstr | harr
  · cases cells with
    | nil => rfl
    | cons c rest =>
      rw [List.all_cons, Bool.and_eq_true] at hstr
      obtain ⟨hc, hrest⟩ := hstr
      cases c
      case str s =>
        simp [Spec.objectModeOKCode, List.dropWhile_cons, Spec.isNoneCell,
          hrest]
      all_goals simp [Spec.isStrCell] at hc
  · cases cells with
    | nil => rfl
    | cons c rest =>
      unfold Spec.arrModeOK at harr
      cases c
      case arr d s =>
        have harr2 : (rest.all fun c2 =>
            match c2 with
            | Cell.arr d2 s2 => d == d2 && s.length == s2.length
            | _ => false) = true := harr
        simp [Spec.objectModeOKCode, List.dropWhile_cons, Spec.isNoneCell,
          harr2]
      all_goals simp at harr

/-- The specification's dtype clause implies the clause the code
enforces. -/
theorem dtypeOK_le_code (arr : NDArray)
    (h : Spec.dtypeOKWith Spec.objectModeOK arr = true) :
    Spec.dtypeOKWith Spec.objectModeOKCode arr = true := by
  obtain ⟨shape, dtype, cells⟩ := arr
  cases dtype <;> simp only [Spec.dtypeOKWith] at h ⊢ <;> try exact h
  exact objectModeOK_le_code cells h

/-- The specification's per-property clause implies the clause the code
enforces. -/
theorem propsEntriesOK_le_code (props : Dict)
    (h : Spec.propsEntriesOK Spec.objectModeOK props = true) :
    Spec.propsEntriesOK Spec.objectModeOKCode props = true := by
  unfold Spec.propsEntriesOK at h ⊢
  rw [List.all_eq_true] at h ⊢
  intro kv hkv
  have hk := h kv hkv
  obtain ⟨k, v⟩ := kv
  cases k
  case str s =>
    cases v
    case ndarray arr =>
      simp only [Bool.and_eq_true] at hk ⊢
      exact ⟨hk.1, dtypeOK_le_code arr hk.2⟩
    all_goals simp at hk
  all_goals simp at hk

/-- The specification's element clause implies the clause the code
enforces. -/
theorem elementOK_le_code (data : Dict)
    (h : Spec.elementOKWith Spec.objectModeOK data = true) :
    Spec.elementOKWith Spec.objectModeOKCode data = true := by
  unfold Spec.elementOKWith at h ⊢
  cases hl : lookupStr data "element" with
  | none => rfl
  | some v =>
    rw [hl] at h
    cases v
    case dict els =>
      rw [List.all_eq_true] at h ⊢
      intro kv hkv
      have hk := h kv hkv
      obtain ⟨k, v2⟩ := kv
      cases k
      case str s =>
        cases v2
        case dict props =>
          simp only [Bool.and_eq_true] at hk ⊢
          exact ⟨⟨hk.1.1, propsEntriesOK_le_code props hk.1.2⟩, hk.2⟩
        all_goals simp at hk
      all_goals simp at hk
    all_goals simp at h

/-! ### Claims -/

/-- C5 (amended): every document satisfying all the invariants of the
data model (root keys, enum values, token and name well-formedness, meta
value kinds, comment indexing, dtype widths, shape agreement,
object-mode consistency) is accepted by verify, and verify, a pure
function of the document, leaves it unmodified; equivalently verify
raises only on documents violating some invariant.  The direction the
original claim adds, that every violation raises, is refuted by the
counterexample. -/
theorem verify_ok_of_valid (data : Dict) (h : Spec.valid data = true) :
    verify data = Except.ok () := by
  unfold Spec.valid Spec.validWith at h
  simp only [Bool.and_eq_true] at h
  obtain ⟨⟨⟨⟨⟨⟨h1, h2⟩, h3⟩, h4⟩, h5⟩, h6⟩, h7⟩ := h
  rw [verify_ok_iff]
  exact ⟨(checkRootKeys_ok_iff data).mpr h1,
    (checkFormat_ok_iff data).mpr h2,
    checkType_ok_of_typeOK data h3,
    (checkMeta_ok_iff data).mpr h4,
    checkComment_ok_of_commentOK data h5,
    (checkCompress_ok_iff data).mpr h6,
    (checkElement_ok_iff data).mpr (elementOK_le_code data h7)⟩

/-- A document exercising the invariants: format, type tokens, a meta
entry, an empty comment mapping, compression and one element of two
equal-shaped float32 properties. -/
def demoDoc : Dict :=
  [ (Value.str "format", Value.str "ascii"),
    (Value.str "type", Value.list [Value.str "mesh"]),
    (Value.str "meta", Value.dict [(Value.str "author", Value.str "Cthulhu")]),
    (Value.str "comment", Value.dict []),
    (Value.str "compress", Value.str "gzip"),
    (Value.str "element", Value.dict [(Value.str "vertex", Value.dict
      [(Value.str "x", Value.ndarray ⟨[3], Dtype.floating 4, []⟩),
       (Value.str "y", Value.ndarray ⟨[3], Dtype.floating 4, []⟩)])]) ]

/-- Witness for C5: the demonstration document satisfies every invariant
and verify accepts it. -/
theorem verify_ok_of_valid_witness :
    Spec.valid demoDoc = true ∧ verify demoDoc = Except.ok () :=
  ⟨rfl, verify_ok_of_valid demoDoc rfl⟩

/-- C5 (counterexample): the document holding one object-dtype property
whose single cell is neither a string nor a nested array violates the
specification's object-mode invariant, yet verify returns normally. -/
theorem verify_accepts_spec_invalid_doc :
    verify (mkObjDoc [1] [Cell.other]) = Except.ok ()
      ∧ Spec.valid (mkObjDoc [1] [Cell.other]) = false :=
  ⟨rfl, rfl⟩

/-- C7: a property of object cell dtype with no cells at all is accepted
by verify, whatever its declared shape: the mode scan inspects no cells. -/
theorem verify_empty_object_ok (shape : List Nat) :
    verify (mkObjDoc shape []) = Except.ok () := by
  rw [verify_mkObjDoc_ok_iff]
  rfl

/-- C10: a property of object cell dtype with exactly one cell is
accepted by verify whatever that cell is, a value that is neither a
string nor a nested array included: the scan only compares later cells
against the first and never checks the first cell on its own. -/
theorem verify_single_object_cell_ok (c : Cell) :
    verify (mkObjDoc [1] [c]) = Except.ok () := by
  rw [verify_mkObjDoc_ok_iff]
  cases c <;> rfl

/-- C3: verify accepts signed and unsigned integer property dtypes
exactly at the byte widths 1, 2, 4, 8, 16 and floating-point dtypes
exactly at the byte widths 2, 4, 8, 16; every width outside the legal
set of its kind is rejected, the rejection being the negation of each
equivalence. -/
theorem verify_width_legality (w : Nat) :
    (verify (mkPropDoc ⟨[3], Dtype.signedinteger w, []⟩) = Except.ok ()
        ↔ w ∈ ([1, 2, 4, 8, 16] : List Nat))
      ∧ (verify (mkPropDoc ⟨[3], Dtype.unsignedinteger w, []⟩) = Except.ok ()
        ↔ w ∈ ([1, 2, 4, 8, 16] : List Nat))
      ∧ (verify (mkPropDoc ⟨[3], Dtype.floating w, []⟩) = Except.ok ()
        ↔ w ∈ ([2, 4, 8, 16] : List Nat)) := by
  refine ⟨?_, ?_, ?_⟩ <;> rw [verify_mkPropDoc_ok_iff] <;>
    simp only [checkDtype]
  · cases hc : ([1, 2, 4, 8, 16] : List Nat).contains w <;> simp_all
  · cases hc : ([1, 2, 4, 8, 16] : List Nat).contains w <;> simp_all
  · cases hc : ([2, 4, 8, 16] : List Nat).contains w <;> simp_all

/-- C4: verify accepts the compress field exactly when its value denotes
one of the enumerated modes none, gzip, bzip2 (the module lists both the
Python None and the empty string as denoting no compression); every other
value is rejected, and in every accepted document a present compress
field denotes one of the three modes. -/
theorem verify_compress_enum :
    (∀ (data : Dict) (v : Value), verify data = Except.ok () →
        lookupStr data "compress" = some v →
        (Spec.denotesNone v || Spec.denotesGzip v || Spec.denotesBzip2 v) = true)
      ∧ ∀ v : Value,
          verify (mkCompressDoc v) = Except.ok () ↔
            (Spec.denotesNone v || Spec.denotesGzip v || Spec.denotesBzip2 v) = true := by
  constructor
  · intro data v hok hl
    have h6 := ((verify_ok_iff data).mp hok).2.2.2.2.2.1
    rw [checkCompress_ok_iff] at h6
    unfold Spec.compressOK at h6
    rw [hl] at h6
    exact h6
  · intro v
    rw [verify_mkCompressDoc_ok_iff, checkCompress_ok_iff]
    exact Iff.rfl

/-- Witness for C4 at the concrete value gzip, against both a document
built by create and the canonical compress-only document. -/
theorem verify_compress_enum_witness :
    (Spec.denotesNone (Value.str "gzip") || Spec.denotesGzip (Value.str "gzip")
        || Spec.denotesBzip2 (Value.str "gzip")) = true
      ∧ verify (mkCompressDoc (Value.str "gzip")) = Except.ok () :=
  ⟨verify_compress_enum.1 (create "little" false 1) (Value.str "gzip") rfl rfl,
   (verify_compress_enum.2 (Value.str "gzip")).mpr rfl⟩

/-- C8: create returns the ascii format when binary is false and the
binary format of the host byte order when binary is true, and its meta,
comment and element mappings are empty. -/
theorem create_defaults (byteorder : String) (compress : Int) :
    lookupStr (create byteorder false compress) "format" = some (Value.str "ascii")
      ∧ (byteorder = "little" →
          lookupStr (create byteorder true compress) "format"
            = some (Value.str "binary_little_endian"))
      ∧ (byteorder ≠ "little" →
          lookupStr (create byteorder true compress) "format"
            = some (Value.str "binary_big_endian"))
      ∧ ∀ binary : Bool,
          lookupStr (create byteorder binary compress) "meta" = some (Value.dict [])
            ∧ lookupStr (create byteorder binary compress) "comment"
                = some (Value.dict [])
            ∧ lookupStr (create byteorder binary compress) "element"
                = some (Value.dict []) := by
  refine ⟨rfl, ?_, ?_, ?_⟩
  · intro h
    subst h
    rfl
  · intro h
    have hbo : (byteorder == "little") = false := by
      simp only [beq_eq_false_iff_ne, ne_eq]
      exact h
    simp [create, lookupStr, hbo]
  · intro binary
    exact ⟨rfl, rfl, rfl⟩

/-- Witness for C8 on the two concrete host byte orders. -/
theorem create_defaults_witness :
    lookupStr (create "little" true 0) "format"
        = some (Value.str "binary_little_endian")
      ∧ lookupStr (create "big" true 0) "format"
        = some (Value.str "binary_big_endian") :=
  ⟨(create_defaults "little" 0).2.1 rfl,
   (create_defaults "big" 0).2.2.1 (by decide)⟩

/-- C9: every document built by create, for either binary flag and each
of the three compress levels, passes verify. -/
theorem create_verify_ok (byteorder : String) (binary : Bool) :
    verify (create byteorder binary 0) = Except.ok ()
      ∧ verify (create byteorder binary 1) = Except.ok ()
      ∧ verify (create byteorder binary 2) = Except.ok () := by
  cases binary with
  | false => exact ⟨rfl, rfl, rfl⟩
  | true =>
    cases hbo : byteorder == "little" <;>
      refine ⟨?_, ?_, ?_⟩ <;>
      simp only [create, hbo, Bool.false_eq_true, if_false, if_true] <;>
      rfl

/-- A member that the predicate rejects survives dropWhile. -/
theorem mem_dropWhile_of_neg {p : Cell → Bool} {c : Cell} :
    ∀ {l : List Cell}, c ∈ l → p c = false → c ∈ l.dropWhile p := by
  intro l
  induction l with
  | nil =>
    intro hm _
    simp at hm
  | cons x xs ih =>
    intro hm hp
    rw [List.dropWhile_cons]
    rcases List.mem_cons.mp hm with rfl | hm'
    · rw [hp, if_neg (by simp)]
      exact List.mem_cons_self _ _
    · cases hx : p x with
      | true =>
        rw [if_pos rfl]
        exact ih hm' hp
      | false =>
        rw [if_neg (by simp)]
        exact List.mem_cons_of_mem _ hm'

/-- A property holding both a string cell and an array cell fails the
code's object-mode clause. -/
theorem objectModeOKCode_false_of_mixed {cells : List Cell} {s : String}
    {d : Dtype} {sh : List Nat}
    (hs : Cell.str s ∈ cells) (ha : Cell.arr d sh ∈ cells) :
    Spec.objectModeOKCode cells = false := by
  cases hc : Spec.objectModeOKCode cells with
  | false => rfl
  | true =>
    exfalso
    unfold Spec.objectModeOKCode at hc
    have hs' : Cell.str s ∈ cells.dropWhile Spec.isNoneCell :=
      mem_dropWhile_of_neg hs rfl
    have ha' : Cell.arr d sh ∈ cells.dropWhile Spec.isNoneCell :=
      mem_dropWhile_of_neg ha rfl
    cases hdw : cells.dropWhile Spec.isNoneCell with
    | nil =>
      rw [hdw] at hs'
      simp at hs'
    | cons c tail =>
      rw [hdw] at hc hs' ha'
      cases c with
      | str s0 =>
        have hmem : Cell.arr d sh ∈ tail := by
          rcases List.mem_cons.mp ha' with h | h
          · exact absurd h (by simp)
          · exact h
        have := List.all_eq_true.mp hc _ hmem
        simp [Spec.isStrCell] at this
      | true =>
        have hmem : Cell.arr d sh ∈ tail := by
          rcases List.mem_cons.mp ha' with h | h
          · exact absurd h (by simp)
          · exact h
        have := List.all_eq_true.mp hc _ hmem
        simp [Spec.isStrCell] at this
      | arr d0 s0 =>
        have hmem : Cell.str s ∈ tail := by
          rcases List.mem_cons.mp hs' with h | h
          · exact absurd h (by simp)
          · exact h
        have := List.all_eq_true.mp hc _ hmem
        simp at this
      | none =>
        have hmem : Cell.str s ∈ tail := by
          rcases List.mem_cons.mp hs' with h | h
          · exact absurd h (by simp)
          · exact h
        rw [List.isEmpty_iff] at hc
        rw [hc] at hmem
        simp at hmem
      | other =>
        have hmem : Cell.str s ∈ tail := by
          rcases List.mem_cons.mp hs' with h | h
          · exact absurd h (by simp)
          · exact h
        rw [List.isEmpty_iff] at hc
        rw [hc] at hmem
        simp at hmem

/-- A property of array cells two of which differ in dtype or rank fails
the code's object-mode clause. -/
theorem objectModeOKCode_false_of_mismatch {cells : List Cell}
    {d1 d2 : Dtype} {s1 s2 : List Nat}
    (hall : ∀ c ∈ cells, ∃ d sh, c = Cell.arr d sh)
    (h1 : Cell.arr d1 s1 ∈ cells) (h2 : Cell.arr d2 s2 ∈ cells)
    (hne : d1 ≠ d2 ∨ s1.length ≠ s2.length) :
    Spec.objectModeOKCode cells = false := by
  cases hc : Spec.objectModeOKCode cells with
  | false => rfl
  | true =>
    exfalso
    cases cells with
    | nil => simp at h1
    | cons c rest =>
      obtain ⟨d0, s0, rfl⟩ := hall c (List.mem_cons_self _ _)
      unfold Spec.objectModeOKCode at hc
      rw [List.dropWhile_cons,
        show Spec.isNoneCell (Cell.arr d0 s0) = false from rfl,
        if_neg (by simp)] at hc
      have hc2 : (rest.all fun c2 =>
          match c2 with
          | Cell.arr d2 s2 => d0 == d2 && s0.length == s2.length
          | _ => false) = true := hc
      have key : ∀ dx sx, Cell.arr dx sx ∈ Cell.arr d0 s0 :: rest →
          dx = d0 ∧ sx.length = s0.length := by
        intro dx sx hm
        rcases List.mem_cons.mp hm with h | h
        · simp only [Cell.arr.injEq] at h
          exact ⟨h.1, by rw [h.2]⟩
        · have := List.all_eq_true.mp hc2 _ h
          simp only [Bool.and_eq_true, beq_iff_eq] at this
          exact ⟨this.1.symm, this.2.symm⟩
      have k1 := key d1 s1 h1
      have k2 := key d2 s2 h2
      rcases hne with hne | hne
      · exact hne (k1.1.trans k2.1.symm)
      · exact hne (k1.2.trans k2.2.symm)

/-- A property of string cells only satisfies the code's object-mode
clause. -/
theorem objectModeOKCode_true_of_allStr {cells : List Cell}
    (h : ∀ c ∈ cells, ∃ s, c = Cell.str s) :
    Spec.objectModeOKCode cells = true := by
  cases cells with
  | nil => rfl
  | cons c rest =>
    obtain ⟨s, rfl⟩ := h c (List.mem_cons_self _ _)
    simp only [Spec.objectModeOKCode, List.dropWhile_cons,
      show Spec.isNoneCell (Cell.str s) = false from rfl]
    rw [if_neg (by simp), List.all_eq_true]
    intro c2 hc2
    obtain ⟨s2, rfl⟩ := h c2 (List.mem_cons_of_mem _ hc2)
    rfl

/-- A property of array cells of one dtype and one rank satisfies the
code's object-mode clause. -/
theorem objectModeOKCode_true_of_allArr {cells : List Cell} {d : Dtype}
    {r : Nat} (h : ∀ c ∈ cells, ∃ sh, c = Cell.arr d sh ∧ sh.length = r) :
    Spec.objectModeOKCode cells = true := by
  cases cells with
  | nil => rfl
  | cons c rest =>
    obtain ⟨sh, rfl, hr⟩ := h c (List.mem_cons_self _ _)
    simp only [Spec.objectModeOKCode, List.dropWhile_cons,
      show Spec.isNoneCell (Cell.arr d sh) = false from rfl]
    rw [if_neg (by simp), List.all_eq_true]
    intro c2 hc2
    obtain ⟨sh2, rfl, hr2⟩ := h c2 (List.mem_cons_of_mem _ hc2)
    simp [hr, hr2]

/-- C1: for a property of object cell dtype with at least two cells,
verify rejects the document whenever the cells mix modes (some cell a
string and some cell a nested array), and whenever every cell is a
nested array but two cells differ in dtype or in rank; it accepts the
property when every cell is a string, and when every cell is a nested
array and all cells share one dtype and one rank. -/
theorem verify_object_mode (cells : List Cell) (h2 : 2 ≤ cells.length) :
    ((∃ s, Cell.str s ∈ cells) → (∃ d sh, Cell.arr d sh ∈ cells) →
        ∃ e, verify (mkObjDoc [cells.length] cells) = Except.error e)
      ∧ ((∀ c ∈ cells, ∃ d sh, c = Cell.arr d sh) →
          (∃ d1 s1 d2 s2, Cell.arr d1 s1 ∈ cells ∧ Cell.arr d2 s2 ∈ cells
            ∧ (d1 ≠ d2 ∨ s1.length ≠ s2.length)) →
          ∃ e, verify (mkObjDoc [cells.length] cells) = Except.error e)
      ∧ ((∀ c ∈ cells, ∃ s, c = Cell.str s) →
          verify (mkObjDoc [cells.length] cells) = Except.ok ())
      ∧ ∀ d r, (∀ c ∈ cells, ∃ sh, c = Cell.arr d sh ∧ sh.length = r) →
          verify (mkObjDoc [cells.length] cells) = Except.ok () := by
  have hrej : Spec.objectModeOKCode cells = false →
      ∃ e, verify (mkObjDoc [cells.length] cells) = Except.error e := by
    intro hcode
    cases hv : verify (mkObjDoc [cells.length] cells) with
    | error e => exact ⟨e, rfl⟩
    | ok u =>
      cases u
      have hok := (scanCells_undet_ok_iff cells).mp
        ((verify_mkObjDoc_ok_iff _ _).mp hv)
      rw [hcode] at hok
      cases hok
  refine ⟨?_, ?_, ?_, ?_⟩
  · rintro ⟨s, hs⟩ ⟨d, sh, ha⟩
    exact hrej (objectModeOKCode_false_of_mixed hs ha)
  · rintro hall ⟨d1, s1, d2, s2, hm1, hm2, hne⟩
    exact hrej (objectModeOKCode_false_of_mismatch hall hm1 hm2 hne)
  · intro hall
    exact ((verify_mkObjDoc_ok_iff _ _).mpr
      ((scanCells_undet_ok_iff cells).mpr (objectModeOKCode_true_of_allStr hall)))
  · intro d r hall
    exact ((verify_mkObjDoc_ok_iff _ _).mpr
      ((scanCells_undet_ok_iff cells).mpr (objectModeOKCode_true_of_allArr hall)))

/-- Witness for C1: a two-cell all-string property is accepted and a
property mixing a string cell with an array cell is rejected. -/
theorem verify_object_mode_witness :
    verify (mkObjDoc [2] [Cell.str "a", Cell.str "b"]) = Except.ok ()
      ∧ ∃ e,
        verify (mkObjDoc [2] [Cell.str "a", Cell.arr (Dtype.floating 4) [2]])
          = Except.error e :=
  ⟨(verify_object_mode [Cell.str "a", Cell.str "b"] (by decide)).2.2.1
      (by simp),
   (verify_object_mode [Cell.str "a", Cell.arr (Dtype.floating 4) [2]]
        (by decide)).1
      ⟨"a", List.mem_cons_self _ _⟩
      ⟨Dtype.floating 4, [2], List.mem_cons_of_mem _ (List.mem_cons_self _ _)⟩⟩

/-- C6: verify accepts a comment dictionary exactly when its keys are,
up to order, the integers 0 .. n-1 for its size n and every value is a
string containing no newline character. -/
theorem verify_comment_iff (entries : Dict) :
    verify (mkCommentDoc entries) = Except.ok () ↔
      ((entries.map Prod.fst).Perm
          ((List.range entries.length).map fun i => Value.int (Int.ofNat i))
        ∧ ∀ kv ∈ entries, ∃ s, kv.2 = Value.str s ∧ s.contains '\n' = false) := by
  rw [verify_mkCommentDoc_ok_iff, checkCommentAll_ok_iff]
  constructor
  · intro hall
    have hs : ∀ i < entries.length, (dictLookupInt entries i).isSome = true := by
      intro i hi
      have hone := hall i (List.mem_range.mpr hi)
      unfold Spec.commentEntryOK at hone
      cases hd : dictLookupInt entries i with
      | none => rw [hd] at hone; simp at hone
      | some w => rfl
    have hperm := comment_keys_perm entries hs
    refine ⟨hperm, ?_⟩
    have hnd : (entries.map Prod.fst).Nodup :=
      hperm.nodup_iff.mpr (rangeKeys_nodup _)
    intro kv hkv
    obtain ⟨i, hi, hk⟩ := comment_keys_int entries hs hkv
    have hmem : (Value.int (Int.ofNat i), kv.2) ∈ entries := by
      rw [← hk, Prod.mk.eta]
      exact hkv
    have hlook := dictLookupInt_eq_of_nodup hnd hmem
    have hone := hall i (List.mem_range.mpr hi)
    unfold Spec.commentEntryOK at hone
    rw [hlook] at hone
    cases hv2 : kv.2 <;> rw [hv2] at hone <;> simp at hone
    exact ⟨_, rfl, hone⟩
  · rintro ⟨hperm, hvals⟩ i hi'
    have hi := List.mem_range.mp hi'
    have hkmem : Value.int (Int.ofNat i) ∈ entries.map Prod.fst :=
      hperm.symm.subset
        (List.mem_map_of_mem _ (List.mem_range.mpr hi))
    obtain ⟨kv, hkv, hk⟩ := List.mem_map.mp hkmem
    have hmem : (Value.int (Int.ofNat i), kv.2) ∈ entries := by
      rw [← hk, Prod.mk.eta]
      exact hkv
    obtain ⟨v, hv⟩ := Option.isSome_iff_exists.mp (dictLookupInt_isSome_of_mem hmem)
    obtain ⟨s, hs2, hnl⟩ := hvals _ (dictLookupInt_mem hv)
    unfold Spec.commentEntryOK
    rw [hv]
    simp only at hs2
    subst hs2
    simp [hnl]

/-! ### Shape agreement -/

/-- A successful element loop makes every element's property loop
succeed. -/
theorem checkElements_ok_props {els : List (Value × Value)} {en : Value}
    {props : List (Value × Value)}
    (hok : checkElements els = Except.ok ())
    (hmem : (en, Value.dict props) ∈ els) :
    checkProps props Option.none = Except.ok () := by
  have hall := List.all_eq_true.mp ((checkElements_ok_iff els).mp hok) _ hmem
  cases en with
  | str s =>
    simp only [Bool.and_eq_true] at hall
    exact (checkProps_none_ok_iff props).mpr ⟨hall.1.2, hall.2⟩
  | int n => simp at hall
  | float => simp at hall
  | none => simp at hall
  | list items => simp at hall
  | dict d => simp at hall
  | ndarray a => simp at hall
  | other => simp at hall

/-- Two shapes recorded by a successful shape agreement check are
equal. -/
theorem shapesOK_eq {props : List (Value × Value)} {s1 s2 : List Nat}
    (hok : Spec.shapesOK props = true)
    (h1 : s1 ∈ props.filterMap Spec.propShape)
    (h2 : s2 ∈ props.filterMap Spec.propShape) : s1 = s2 := by
  unfold Spec.shapesOK at hok
  cases hfm : props.filterMap Spec.propShape with
  | nil => rw [hfm] at h1; simp at h1
  | cons s0 rest =>
    rw [hfm] at hok h1 h2
    have hall := List.all_eq_true.mp hok
    have hs1 : s1 = s0 := by
      rcases List.mem_cons.mp h1 with rfl | h1'
      · rfl
      · simpa using hall s1 h1'
    have hs2 : s2 = s0 := by
      rcases List.mem_cons.mp h2 with rfl | h2'
      · rfl
      · simpa using hall s2 h2'
    rw [hs1, hs2]

/-- A successful property loop forces any two ndarray-valued properties
to share one shape. -/
theorem checkProps_ok_shapes_agree {props : List (Value × Value)}
    {k1 k2 : Value} {a1 a2 : NDArray}
    (hok : checkProps props Option.none = Except.ok ())
    (h1 : (k1, Value.ndarray a1) ∈ props)
    (h2 : (k2, Value.ndarray a2) ∈ props) : a1.shape = a2.shape := by
  have hso := (checkProps_none_ok_iff props).mp hok |>.2
  have hm1 : a1.shape ∈ props.filterMap Spec.propShape := by
    rw [List.mem_filterMap]
    exact ⟨(k1, Value.ndarray a1), h1, rfl⟩
  have hm2 : a2.shape ∈ props.filterMap Spec.propShape := by
    rw [List.mem_filterMap]
    exact ⟨(k2, Value.ndarray a2), h2, rfl⟩
  exact shapesOK_eq hso hm1 hm2

/-- The cell scan never raises the shape-mismatch RuntimeError. -/
theorem scanCells_ne_runtime :
    ∀ (cells : List Cell) (b : ScanBase) (m : String),
      scanCells cells b ≠ Except.error (PyError.runtimeError m) := by
  intro cells
  induction cells with
  | nil => intro b m h; simp [scanCells] at h
  | cons c rest ih =>
    intro b m h
    cases b with
    | undet => exact ih _ m h
    | strMode =>
      cases c with
      | str s => exact ih _ m h
      | arr d s => simp [scanCells] at h
      | none => simp [scanCells] at h
      | true => simp [scanCells] at h
      | other => simp [scanCells] at h
    | cellBase bc =>
      cases bc with
      | arr bd bs =>
        cases c with
        | arr d s =>
          simp only [scanCells] at h
          by_cases hco : (bd != d || bs.length != s.length) = true
          · rw [if_pos hco] at h
            simp at h
          · rw [if_neg hco] at h
            exact ih _ m h
        | str s => simp [scanCells] at h
        | none => simp [scanCells] at h
        | true => simp [scanCells] at h
        | other => simp [scanCells] at h
      | str s => simp [scanCells] at h
      | none => simp [scanCells] at h
      | true => simp [scanCells] at h
      | other => simp [scanCells] at h

/-- The dtype dispatch never raises the shape-mismatch RuntimeError. -/
theorem checkDtype_ne_runtime (arr : NDArray) (m : String) :
    checkDtype arr ≠ Except.error (PyError.runtimeError m) := by
  obtain ⟨shape, dtype, cells⟩ := arr
  cases dtype with
  | object => exact scanCells_ne_runtime cells ScanBase.undet m
  | other => simp [checkDtype]
  | signedinteger w =>
    simp only [checkDtype]
    split <;> simp
  | unsignedinteger w =>
    simp only [checkDtype]
    split <;> simp
  | floating w =>
    simp only [checkDtype]
    split <;> simp

/-- When every ndarray property already has the running shape, the
property loop never raises the shape-mismatch RuntimeError. -/
theorem checkProps_ne_shape_error (props : List (Value × Value)) (s : List Nat)
    (hall : ∀ kv ∈ props, ∀ a, kv.2 = Value.ndarray a → a.shape = s) :
    ∀ b : Option (List Nat), (b = Option.none ∨ b = some s) →
      checkProps props b
        ≠ Except.error (PyError.runtimeError "Shapes of all properties in an element must match") := by
  induction props with
  | nil =>
    intro b _ h
    cases b <;> simp [checkProps] at h
  | cons kv rest ih =>
    intro b hb h
    obtain ⟨k, v⟩ := kv
    have hall' : ∀ kv ∈ rest, ∀ a, kv.2 = Value.ndarray a → a.shape = s :=
      fun kv hkv => hall kv (List.mem_cons_of_mem _ hkv)
    cases k with
    | str s0 =>
      simp only [checkProps] at h
      by_cases htb : tokenBad s0 = true
      · rw [if_pos htb] at h
        simp at h
      · rw [if_neg htb] at h
        cases v with
        | ndarray arr =>
          have hsh : arr.shape = s :=
            hall (Value.str s0, Value.ndarray arr) (List.mem_cons_self _ _) arr rfl
          rcases hb with rfl | rfl
          · have h2 : Except.bind (checkDtype arr)
                  (fun _ => checkProps rest (some arr.shape))
                = Except.error (PyError.runtimeError "Shapes of all properties in an element must match") := h
            cases hd : checkDtype arr with
            | error e =>
              rw [hd] at h2
              simp only [Except.bind] at h2
              rw [h2] at hd
              exact checkDtype_ne_runtime arr _ hd
            | ok u =>
              cases u
              rw [hd] at h2
              simp only [Except.bind] at h2
              rw [hsh] at h2
              exact ih hall' (some s) (Or.inr rfl) h2
          · have h2 : (if s ≠ arr.shape then
                  Except.error (PyError.runtimeError "Shapes of all properties in an element must match")
                else Except.bind (checkDtype arr)
                  (fun _ => checkProps rest (some s)))
                = Except.error (PyError.runtimeError "Shapes of all properties in an element must match") := h
            rw [if_neg (not_not_intro hsh.symm)] at h2
            cases hd : checkDtype arr with
            | error e =>
              rw [hd] at h2
              simp only [Except.bind] at h2
              rw [h2] at hd
              exact checkDtype_ne_runtime arr _ hd
            | ok u =>
              cases u
              rw [hd] at h2
              simp only [Except.bind] at h2
              exact ih hall' (some s) (Or.inr rfl) h2
        | str s2 => simp at h
        | int n => simp at h
        | float => simp at h
        | none => simp at h
        | list items => simp at h
        | dict d => simp at h
        | other => simp at h
    | int n => simp [checkProps] at h
    | float => simp [checkProps] at h
    | none => simp [checkProps] at h
    | list items => simp [checkProps] at h
    | dict d => simp [checkProps] at h
    | ndarray a => simp [checkProps] at h
    | other => simp [checkProps] at h

/-- C2: a document holding an element with two ndarray properties of
different full shapes is always rejected by verify, whatever the dtypes;
and when every ndarray property of an element shares one full shape the
shape check never fires. -/
theorem verify_shape_agreement :
    (∀ (data : Dict) (els props : List (Value × Value)) (en k1 k2 : Value)
        (a1 a2 : NDArray),
        lookupStr data "element" = some (Value.dict els) →
        (en, Value.dict props) ∈ els →
        (k1, Value.ndarray a1) ∈ props →
        (k2, Value.ndarray a2) ∈ props →
        a1.shape ≠ a2.shape →
        ∃ e, verify data = Except.error e)
      ∧ ∀ (props : List (Value × Value)) (s : List Nat),
          (∀ kv ∈ props, ∀ a, kv.2 = Value.ndarray a → a.shape = s) →
          checkProps props Option.none
            ≠ Except.error (PyError.runtimeError "Shapes of all properties in an element must match") := by
  constructor
  · intro data els props en k1 k2 a1 a2 hl hel hp1 hp2 hne
    cases hv : verify data with
    | error e => exact ⟨e, rfl⟩
    | ok u =>
      cases u
      exfalso
      have h7 := ((verify_ok_iff data).mp hv).2.2.2.2.2.2
      unfold checkElement at h7
      rw [hl] at h7
      exact hne (checkProps_ok_shapes_agree (checkElements_ok_props h7 hel) hp1 hp2)
  · intro props s hall
    exact checkProps_ne_shape_error props s hall Option.none (Or.inl rfl)

/-- Witness for C2: two float32 columns of shapes 2 by 3 and 2 by 4,
equal in the leading dimension only, are rejected. -/
theorem verify_shape_agreement_witness :
    ∃ e,
      verify [(Value.str "element",
        Value.dict [(Value.str "elem", Value.dict
          [(Value.str "x", Value.ndarray ⟨[2, 3], Dtype.floating 4, []⟩),
           (Value.str "y", Value.ndarray ⟨[2, 4], Dtype.floating 4, []⟩)])])]
        = Except.error e :=
  verify_shape_agreement.1 _ _ _ (Value.str "elem") (Value.str "x") (Value.str "y")
    ⟨[2, 3], Dtype.floating 4, []⟩ ⟨[2, 4], Dtype.floating 4, []⟩
    rfl (List.mem_singleton.mpr rfl) (List.mem_cons_self _ _)
    (List.mem_cons_of_mem _ (List.mem_cons_self _ _)) (by decide)

end Ply2
